import Mathlib

/-!
Verification development for the `fdi` interactive fuzzy filesystem
navigator (`src/main.rs`).  The Rust source is shallowly embedded below:
pure functions become Lean functions, the key-handler thread and the main
event loop become step functions over explicit state, and the external
collaborators (filesystem, fuzzy-matcher crate, spawned process) are
modelled as explicit parameters or environment records.
-/

namespace Fdi

/-! ### Filesystem and path model

`std::path` values are modelled as lists of components of an absolute
path (the empty list is the filesystem root `/`).  `canonicalize`
succeeds on any existing path, directory or not, exactly as
`std::fs::canonicalize` does; the filesystem itself is an explicit finite
environment.  Leading `/` in user input and symlinks are not modelled;
the claims below do not depend on them. -/

abbrev Path := List String

/-- One filesystem object: its absolute path and whether it is a directory. -/
structure FsEntry where
  path : Path
  isDir : Bool
deriving DecidableEq, Repr

/-- The filesystem environment: the set of existing objects. -/
structure FileSystem where
  entries : List FsEntry
deriving DecidableEq, Repr

/-- Split a user-typed subpath on the component separator, as
`Path::join` does with a relative string argument. -/
def splitPathAux : List Char → List Char → List String
  | [], acc => [String.mk acc.reverse]
  | c :: cs, acc =>
    if c = '/' then String.mk acc.reverse :: splitPathAux cs []
    else splitPathAux cs (c :: acc)

/-- Components of a user-typed subpath string. -/
def splitPath (s : String) : List String :=
  splitPathAux s.data []

/-- Model of `PathBuf::join` with a relative subpath. -/
def joinPath (dir : Path) (sub : List String) : Path :=
  dir ++ sub

/-- One step of lexical path normalisation: empty and `.` components are
dropped, `..` removes the last component (and is a no-op at the root,
as for the POSIX root directory). -/
def normStep (acc : List String) (c : String) : List String :=
  if c = "" ∨ c = "." then acc
  else if c = ".." then acc.dropLast
  else acc ++ [c]

/-- Normalise a path to its canonical component list. -/
def normalize (p : Path) : Path :=
  p.foldl normStep []

/-- Whether a path exists in the filesystem environment (the root always
exists). -/
def pathExists (fs : FileSystem) (p : Path) : Bool :=
  p == [] || fs.entries.any (fun e => e.path == p)

/-- Model of `std::fs::canonicalize` (`Path::canonicalize`): resolve the
path lexically and succeed exactly when the resolved path exists —
whether or not it is a directory, matching the Rust API, which performs
no directory check. -/
def canonicalize (fs : FileSystem) (p : Path) : Option Path :=
  let q := normalize p
  if pathExists fs q then some q else none

/-- Whether an existing path is a directory. -/
def isDirAt (fs : FileSystem) (p : Path) : Bool :=
  fs.entries.any (fun e => e.path == p && e.isDir)

/-- Model of `Path::parent`: `None` at the root, otherwise the path with
its last component removed. -/
def parentPath (p : Path) : Option Path :=
  if p = [] then none else some p.dropLast

/-! ### UTF-8 byte-length model

`String::len` in Rust is the UTF-8 byte length, and `&input[0..n]`
slices at byte offsets, panicking when `n` is not a character boundary.
`Char.utf8Size` agrees with Rust `char::len_utf8`. -/

/-- UTF-8 byte length of a character sequence (Rust `String::len`). -/
def bytesLen : List Char → Nat
  | [] => 0
  | c :: cs => c.utf8Size + bytesLen cs

/-- UTF-8 byte length of a string (Rust `String::len`). -/
def strByteLen (s : String) : Nat :=
  bytesLen s.data

/-- Model of the byte slice `&s[0..n]`: the characters making up the
first `n` bytes, or `none` (a panic in Rust) when `n` is not on a
character boundary or out of range. -/
def utf8Take (l : List Char) (n : Nat) : Option (List Char) :=
  if n = 0 then some []
  else
    match l with
    | [] => none
    | c :: cs =>
      if c.utf8Size ≤ n then (utf8Take cs (n - c.utf8Size)).map (fun r => c :: r)
      else none

/-! ### `OutputLine` and the fuzzy scorer

The scorer is the external `fuzzy_matcher` crate
(`SkimMatcherV2::fuzzy_indices`), modelled as an abstract pure function
from candidate and pattern to an optional score with matched indices —
the only shape the source consumes (spec section 4.1 requires the scorer
to be deterministic and pure). -/

abbrev Matcher := String → String → Option (Int × List Nat)

/-- Embedding of `struct OutputLine` (src/main.rs lines 38-43). -/
structure OutputLine where
  data : String
  score : Int
  indices : List Nat
deriving DecidableEq, Repr

/-- Embedding of `OutputLine::new` (lines 46-60): score and indices start
at `Default::default()` (zero, empty) and are overwritten only when
`fuzzy_indices` returns `Some`. -/
def OutputLine.new (data : String) (matcher : Matcher) (match_with : String) : OutputLine :=
  match matcher data match_with with
  | some (fscore, findices) => ⟨data, fscore, findices⟩
  | none => ⟨data, 0, []⟩

/-- Embedding of `OutputLine::update` (lines 62-69): score and indices
are overwritten only when `fuzzy_indices` returns `Some`; on `None` the
entry is left entirely unchanged. -/
def OutputLine.update (self : OutputLine) (matcher : Matcher) (match_with : String) : OutputLine :=
  match matcher self.data match_with with
  | some (fscore, findices) => ⟨self.data, fscore, findices⟩
  | none => self

/-- The ordering used by `output.sort_by(|a, b| b.score.cmp(&a.score))`:
`a` may precede `b` when `a` scores at least as high. -/
def scoreGe (a b : OutputLine) : Prop :=
  b.score ≤ a.score

instance : DecidableRel scoreGe := fun a b => Int.decLe b.score a.score

instance : IsTotal OutputLine scoreGe := ⟨fun a b => le_total b.score a.score⟩

instance : IsTrans OutputLine scoreGe := ⟨fun _ _ _ hab hbc => le_trans hbc hab⟩

/-- Embedding of `update_fuzz` (lines 137-143): update every line against
the pattern, then sort by descending score.  Rust `sort_by` is a stable
sort, and a stable sort for a total preorder is unique, so it is embedded
as insertion sort under `scoreGe`. -/
def update_fuzz (output : List OutputLine) (matcher : Matcher) (pattern : String) :
    List OutputLine :=
  List.insertionSort scoreGe (output.map (fun line => line.update matcher pattern))

/-! ### Events and the key-handler thread

`enum AppEvent` (lines 145-151) and the body of the `handle_keys` loop
(lines 153-204), one key event at a time.  Branches that can panic
(`input[0..input.len() - 1]` off a character boundary) return `none`. -/

/-- Embedding of `enum AppEvent` (lines 145-151). -/
inductive AppEvent where
  | Quit
  | Input (dir : Path) (inp : String)
  | Dir (dir : Path) (inp : String)
  | Sorted (lines : List String)
  | Unknown
deriving DecidableEq, Repr

/-- The mutable state owned by the `handle_keys` thread: the current
directory and the typed query. -/
structure KeyState where
  dir : Path
  input : String
deriving DecidableEq, Repr

/-- A raw key event as matched by `handle_keys`. -/
inductive Key where
  | CtrlC
  | Backspace
  | Char (c : Char)
  | Other
deriving DecidableEq, Repr

/-- The query-edit outcome shared by the `Key::Char(ch)` arm and the
non-empty `Key::Backspace` arm (the EditQuery command of spec
section 4.4): set the query and emit an `Input` event; the directory is
untouched. -/
def editQuery (st : KeyState) (q : String) : KeyState × List AppEvent :=
  (⟨st.dir, q⟩, [AppEvent.Input st.dir q])

/-- Embedding of the `Key::Char('\n') | Key::Char('\t')` arm (lines
183-191), the Descend command: on successful canonicalisation of
`dir.join(&input)` the directory becomes the resolved path, the query is
cleared and a `Dir` event is emitted; otherwise nothing happens. -/
def descendStep (fs : FileSystem) (st : KeyState) : KeyState × List AppEvent :=
  match canonicalize fs (joinPath st.dir (splitPath st.input)) with
  | some d => (⟨d, ""⟩, [AppEvent.Dir d ""])
  | none => (st, [])

/-- Embedding of the `Key::Backspace` arm (lines 172-182).  With an empty
query (`input.len() < 1`) it ascends to the parent directory when one
exists; with a non-empty query it slices off the final byte via
`input[0..input.len() - 1]`, which is `none` (a Rust panic) when the
final character is more than one byte. -/
def backspaceStep (st : KeyState) : Option (KeyState × List AppEvent) :=
  if strByteLen st.input < 1 then
    match parentPath st.dir with
    | some p => some (⟨p, st.input⟩, [AppEvent.Dir p st.input])
    | none => some (st, [])
  else
    match utf8Take st.input.data (strByteLen st.input - 1) with
    | some r => some (editQuery st (String.mk r))
    | none => none

/-- Embedding of the full `match key` dispatch of `handle_keys` (lines
168-200), keeping the source order: `Ctrl('c')`, `Backspace`,
`Char('\n') | Char('\t')`, `Char(ch)`, wildcard. -/
def handleKeysStep (fs : FileSystem) (st : KeyState) (k : Key) :
    Option (KeyState × List AppEvent) :=
  match k with
  | Key.CtrlC => some (st, [AppEvent.Quit])
  | Key.Backspace => backspaceStep st
  | Key.Char c =>
    if c = '\n' ∨ c = '\t' then some (descendStep fs st)
    else some (editQuery st (st.input.push c))
  | Key.Other => some (st, [AppEvent.Unknown])

/-! ### The `spawn_fd` producer

`spawn_fd` (lines 95-123) interacts with the operating system; the
outcome of that interaction is an explicit environment record: whether
`cmd.spawn()` succeeds, the exit status eventually reported by
`child.wait()`, and the lines the child writes.  The embedding records
what the function does with each outcome: `.expect("failed to spawn
command")` panics on spawn failure, while the monitor task prints the
exit status (zero or not) to stderr and the function returns the line
reader either way. -/

/-- Outcome of the external `fd` process for one invocation. -/
structure ProcEnv where
  spawnOk : Bool
  exitStatus : Int
  lines : List String
deriving DecidableEq, Repr

/-- Result of `spawn_fd`: either a panic with the `expect` message, or a
line reader together with the stderr diagnostic the monitor task emits. -/
inductive SpawnOutcome where
  | panicked (msg : String)
  | reader (lines : List String) (diag : String)
deriving DecidableEq, Repr

/-- Embedding of `spawn_fd` (lines 95-123). -/
def spawn_fd (env : ProcEnv) : SpawnOutcome :=
  if env.spawnOk then
    SpawnOutcome.reader env.lines ("child status was: " ++ toString env.exitStatus)
  else
    SpawnOutcome.panicked "failed to spawn command"

/-! ### The live `main` event loop

The state owned by `main` (lines 206-267): the entry vector `output`
(line 217), the rendered prompt writes, and the stderr diagnostics.
Prompt rendering abstracts the terminal escape sequences and records the
`(dir, input)` payload written on line 1. -/

/-- State owned by the `main` loop. -/
structure MainState where
  output : List OutputLine
  screen : List (Path × String)
  diag : List String
deriving DecidableEq, Repr

/-- One iteration of `for event in rx.iter()` (lines 234-267).  Returns
the new state and whether the loop continues (`false` on `Quit`).  `Dir`
and `Input` events rewrite the prompt line; everything else (including
`Sorted`, the declared enumeration-feed event) falls to the wildcard arm
that prints a diagnostic.  No arm touches `output`. -/
def mainStep (st : MainState) : AppEvent → MainState × Bool
  | AppEvent.Quit => (st, false)
  | AppEvent.Dir d inp => ({ st with screen := st.screen ++ [(d, inp)] }, true)
  | AppEvent.Input d inp => ({ st with screen := st.screen ++ [(d, inp)] }, true)
  | AppEvent.Sorted _ => ({ st with diag := st.diag ++ ["Uknown event"] }, true)
  | AppEvent.Unknown => ({ st with diag := st.diag ++ ["Uknown event"] }, true)

/-- The `main` event loop over a finite event trace. -/
def mainLoop (st : MainState) : List AppEvent → MainState
  | [] => st
  | e :: es =>
    let r := mainStep st e
    if r.2 then mainLoop r.1 es else r.1

/-! ### Generation-tagged coordinator

Modelled from the spec: the generation-tagged Enumeration Feed consumer
of sections 3, 4.3 and 5 is missing from src/main.rs — the live loop
declares the feed event (`AppEvent::Sorted`) but never appends feed
lines to the entry store (its draft is commented out and carries no
generation tag).  Session State holds a monotonically increasing
`enumeration_generation`; a directory change bumps it and clears the
entries; a delivered `(generation, line)` pair is appended only when its
tag equals the current generation and is discarded otherwise. -/

/-- Modelled from the spec: events reaching the coordinator — a
directory change, or a feed line tagged with the generation of the
enumeration run that produced it. -/
inductive FeedEvent where
  | dirChange (newDir : Path)
  | deliver (gen : Nat) (line : String)
deriving DecidableEq, Repr

/-- Modelled from the spec: the coordinator-owned Session State — the
current generation, current directory, and the generation-tagged entry
store. -/
structure Coordinator where
  generation : Nat
  dir : Path
  entries : List (Nat × String)
deriving DecidableEq, Repr

/-- Modelled from the spec: one coordinator step.  A directory change
bumps the generation and clears the entry store; a delivered line is
appended exactly when its generation tag is current. -/
def coordStep (st : Coordinator) : FeedEvent → Coordinator
  | FeedEvent.dirChange d => ⟨st.generation + 1, d, []⟩
  | FeedEvent.deliver g line =>
    if g = st.generation then ⟨st.generation, st.dir, st.entries ++ [(g, line)]⟩
    else st

/-- Modelled from the spec: the coordinator run over a finite
interleaving of directory changes and feed deliveries. -/
def coordRun (st : Coordinator) (evs : List FeedEvent) : Coordinator :=
  evs.foldl coordStep st

/-! ### Helper lemmas: UTF-8 byte slicing -/

lemma bytesLen_append (l r : List Char) :
    bytesLen (l ++ r) = bytesLen l + bytesLen r := by
  induction l with
  | nil => simp [bytesLen]
  | cons c cs ih => simp [bytesLen, ih]; omega

lemma utf8Take_cons (c : Char) (cs : List Char) (n : Nat) (h0 : ¬ (n = 0)) :
    utf8Take (c :: cs) n =
      if c.utf8Size ≤ n then (utf8Take cs (n - c.utf8Size)).map (fun r => c :: r)
      else none := by
  rw [utf8Take, if_neg h0]

lemma utf8Take_append (l r : List Char) (n : Nat) :
    utf8Take (l ++ r) (bytesLen l + n) = (utf8Take r n).map (fun t => l ++ t) := by
  induction l with
  | nil =>
    simp only [List.nil_append, bytesLen, Nat.zero_add]
    cases utf8Take r n <;> simp
  | cons c cs ih =>
    have hc : 0 < c.utf8Size := Char.utf8Size_pos c
    have hblen : bytesLen (c :: cs) = c.utf8Size + bytesLen cs := rfl
    have h0 : ¬ (bytesLen (c :: cs) + n = 0) := by omega
    have hle : c.utf8Size ≤ bytesLen (c :: cs) + n := by omega
    have harith : bytesLen (c :: cs) + n - c.utf8Size = bytesLen cs + n := by omega
    rw [List.cons_append, utf8Take_cons c (cs ++ r) _ h0, if_pos hle, harith, ih]
    cases utf8Take r n <;> simp

lemma utf8Take_last (pre : List Char) (c : Char) :
    utf8Take (pre ++ [c]) (bytesLen pre + c.utf8Size - 1) =
      if c.utf8Size = 1 then some pre else none := by
  have hc : 0 < c.utf8Size := Char.utf8Size_pos c
  have h : bytesLen pre + c.utf8Size - 1 = bytesLen pre + (c.utf8Size - 1) := by omega
  rw [h, utf8Take_append]
  by_cases h1 : c.utf8Size = 1
  · rw [if_pos h1, h1]
    simp [utf8Take]
  · rw [if_neg h1]
    have h2 : ¬ (c.utf8Size - 1 = 0) := by omega
    have h3 : ¬ (c.utf8Size ≤ c.utf8Size - 1) := by omega
    rw [utf8Take_cons c [] _ h2, if_neg h3]
    rfl

/-! ### Claims C9 and C7: the Backspace handler -/

/-- Claim C9 (confirmed): the erase handler is not total over arbitrary
query strings.  It shortens the query by the byte-range slice
`input[0..input.len() - 1]`, so whenever the final character of a
non-empty query occupies two or more UTF-8 bytes the slice is off a
character boundary and the handler panics (modelled as `none`); it is
panic-free exactly when the final character is a single byte, in which
case that character is removed. -/
theorem c9_backspace_byte_slice (d : Path) (pre : List Char) (c : Char) :
    (2 ≤ c.utf8Size → backspaceStep ⟨d, String.mk (pre ++ [c])⟩ = none) ∧
    (c.utf8Size = 1 → backspaceStep ⟨d, String.mk (pre ++ [c])⟩ =
      some (⟨d, String.mk pre⟩, [AppEvent.Input d (String.mk pre)])) := by
  have hc : 0 < c.utf8Size := Char.utf8Size_pos c
  have hb : strByteLen (String.mk (pre ++ [c])) = bytesLen pre + c.utf8Size := by
    show bytesLen (pre ++ [c]) = bytesLen pre + c.utf8Size
    rw [bytesLen_append]
    show bytesLen pre + (c.utf8Size + bytesLen []) = bytesLen pre + c.utf8Size
    rfl
  have hnlt : ¬ (strByteLen (String.mk (pre ++ [c])) < 1) := by omega
  have hdata : (String.mk (pre ++ [c])).data = pre ++ [c] := rfl
  constructor
  · intro h2
    unfold backspaceStep
    rw [if_neg hnlt, hdata, hb, utf8Take_last, if_neg (by omega : ¬ (c.utf8Size = 1))]
  · intro h1
    unfold backspaceStep
    rw [if_neg hnlt, hdata, hb, utf8Take_last, if_pos h1]
    rfl

/-- Witness for C9 at concrete inputs: a two-byte final character
(U+00E9) panics; a one-byte final character is removed. -/
theorem c9_backspace_byte_slice_witness :
    backspaceStep ⟨["r"], String.mk ([] ++ ['é'])⟩ = none ∧
    backspaceStep ⟨["r"], String.mk (['x'] ++ ['y'])⟩ =
      some (⟨["r"], String.mk ['x']⟩, [AppEvent.Input ["r"] (String.mk ['x'])]) :=
  ⟨(c9_backspace_byte_slice ["r"] [] 'é').1 (by decide),
   (c9_backspace_byte_slice ["r"] ['x'] 'y').2 (by decide)⟩

/-- Counterexample to claim C7 as stated: on the session state with an
empty directory and the one-character query consisting of U+00E9, the
Backspace command does not remove the last character of the query — it
panics (`none`), because the character is two bytes and the byte slice
`input[0..input.len() - 1]` is off a character boundary. -/
theorem c7_backspace_cex : backspaceStep ⟨[], "é"⟩ = none := rfl

/-- Claim C7 as amended: if the query is non-empty and its final
character is a single byte, Backspace removes that character and behaves
exactly as the query-edit path (`editQuery`) on the shortened query — an
`Input` event, no directory change; with a non-empty query ending in a
multi-byte character it panics (claim C9).  If the query is empty, it
performs the Ascend transition: the directory moves to its parent when
one exists, and at the filesystem root nothing changes and no event is
emitted. -/
theorem c7_backspace_amended (st : KeyState) (p : Path) (pre : List Char) (c : Char) :
    (st.input = "" → parentPath st.dir = some p →
      backspaceStep st = some (⟨p, ""⟩, [AppEvent.Dir p ""])) ∧
    (st.input = "" → parentPath st.dir = none → backspaceStep st = some (st, [])) ∧
    (st.input.data = pre ++ [c] → c.utf8Size = 1 →
      backspaceStep st = some (editQuery st (String.mk pre))) := by
  refine ⟨fun he hp => ?_, fun he hp => ?_, fun he h1 => ?_⟩
  · obtain ⟨d, i⟩ := st
    cases he
    unfold backspaceStep
    rw [if_pos (by decide : strByteLen "" < 1), hp]
  · obtain ⟨d, i⟩ := st
    cases he
    unfold backspaceStep
    rw [if_pos (by decide : strByteLen "" < 1), hp]
  · have hc : 0 < c.utf8Size := Char.utf8Size_pos c
    have hb : strByteLen st.input = bytesLen pre + c.utf8Size := by
      show bytesLen st.input.data = bytesLen pre + c.utf8Size
      rw [he, bytesLen_append]
      show bytesLen pre + (c.utf8Size + bytesLen []) = bytesLen pre + c.utf8Size
      rfl
    have hnlt : ¬ (strByteLen st.input < 1) := by omega
    unfold backspaceStep
    rw [if_neg hnlt, he, hb, utf8Take_last, if_pos h1]

/-- Witness for C7 as amended: ascend from a one-component directory, the
no-op at the root, and single-byte character removal. -/
theorem c7_backspace_witness :
    backspaceStep ⟨["a"], ""⟩ = some (⟨([] : Path), ""⟩, [AppEvent.Dir [] ""]) ∧
    backspaceStep ⟨([] : Path), ""⟩ = some (⟨([] : Path), ""⟩, []) ∧
    backspaceStep ⟨([] : Path), "ab"⟩ = some (editQuery ⟨([] : Path), "ab"⟩ (String.mk ['a'])) :=
  ⟨(c7_backspace_amended ⟨["a"], ""⟩ [] [] 'x').1 rfl rfl,
   (c7_backspace_amended ⟨[], ""⟩ [] [] 'x').2.1 rfl rfl,
   (c7_backspace_amended ⟨[], "ab"⟩ [] ['a'] 'b').2.2 rfl (by decide)⟩

/-! ### Helper lemmas: stable sorting by descending score -/

lemma filter_orderedInsert_score (s : Int) (x : OutputLine) (l : List OutputLine) :
    (List.orderedInsert scoreGe x l).filter (fun e => e.score == s) =
      if x.score == s then x :: l.filter (fun e => e.score == s)
      else l.filter (fun e => e.score == s) := by
  induction l with
  | nil =>
    by_cases hx : x.score == s <;> simp [List.orderedInsert, List.filter, hx]
  | cons y ys ih =>
    by_cases h : scoreGe x y
    · by_cases hx : x.score == s <;> by_cases hy : y.score == s <;>
        simp [List.orderedInsert, h, List.filter_cons, hx, hy]
    · have hlt : x.score < y.score := by
        have := h
        unfold scoreGe at this
        omega
      by_cases hx : x.score == s
      · have hxv : x.score = s := by
          exact beq_iff_eq.mp hx
        have hy : (y.score == s) = false := by
          rw [beq_eq_false_iff_ne]
          omega
        simp [List.orderedInsert, h, List.filter_cons, hx, hy, ih]
      · simp [List.orderedInsert, h, List.filter_cons, hx, ih]

lemma filter_insertionSort_score (s : Int) (l : List OutputLine) :
    (List.insertionSort scoreGe l).filter (fun e => e.score == s) =
      l.filter (fun e => e.score == s) := by
  induction l with
  | nil => rfl
  | cons x xs ih =>
    rw [List.insertionSort, filter_orderedInsert_score, ih, List.filter_cons]

lemma insertionSort_all_zero (l : List OutputLine) (h : ∀ e ∈ l, e.score = 0) :
    List.insertionSort scoreGe l = l := by
  induction l with
  | nil => rfl
  | cons x xs ih =>
    rw [List.insertionSort, ih (fun e he => h e (List.mem_cons_of_mem x he))]
    cases xs with
    | nil => rfl
    | cons y ys =>
      have hxy : scoreGe x y := by
        show y.score ≤ x.score
        rw [h x (List.mem_cons_self x _), h y (List.mem_cons_of_mem x (List.mem_cons_self y _))]
      simp only [List.orderedInsert, if_pos hxy]

lemma update_empty (m : Matcher) (hm : ∀ s, m s "" = some (0, [])) (e : OutputLine) :
    OutputLine.update e m "" = ⟨e.data, 0, []⟩ := by
  unfold OutputLine.update
  rw [hm]

lemma update_fuzz_empty (m : Matcher) (hm : ∀ s, m s "" = some (0, []))
    (output : List OutputLine) :
    update_fuzz output m "" = output.map (fun e => ⟨e.data, 0, []⟩) := by
  unfold update_fuzz
  rw [List.map_congr_left (fun a _ => update_empty m hm a)]
  apply insertionSort_all_zero
  intro e he
  rcases List.mem_map.mp he with ⟨a, _, rfl⟩
  rfl

/-! ### Claim C5: rescore-all is a stable descending sort -/

/-- Claim C5 (confirmed): for every entry list, matcher and query,
`update_fuzz` produces a permutation of the rescored entries that is
sorted by descending score, and for each score value the entries holding
that score appear in exactly the order they had before the sort — the
comparator `b.score.cmp(&a.score)` under the stable `sort_by` keeps
equal-scored entries in their relative arrival order. -/
theorem c5_rescore_stable_sort (output : List OutputLine) (matcher : Matcher)
    (pattern : String) (s : Int) :
    List.Sorted scoreGe (update_fuzz output matcher pattern) ∧
    List.Perm (update_fuzz output matcher pattern)
      (output.map (fun line => line.update matcher pattern)) ∧
    (update_fuzz output matcher pattern).filter (fun e => e.score == s) =
      (output.map (fun line => line.update matcher pattern)).filter
        (fun e => e.score == s) :=
  ⟨List.sorted_insertionSort scoreGe _, List.perm_insertionSort scoreGe _,
    filter_insertionSort_score s _⟩

/-! ### Claim C8: rescoring with the empty query -/

/-- Claim C8 (confirmed): under the scorer contract for empty queries —
the external matcher returns score `0` with no positions for every
candidate, as spec section 4.1 states for `SkimMatcherV2` — a rescore
with the empty query gives every entry the baseline score zero and no
highlight positions, keeps the entries in their arrival order, and is
idempotent: a second application returns the same list. -/
theorem c8_empty_query_idempotent (matcher : Matcher)
    (hm : ∀ s, matcher s "" = some (0, [])) (output : List OutputLine) :
    update_fuzz output matcher "" = output.map (fun e => ⟨e.data, 0, []⟩) ∧
    (update_fuzz output matcher "").map (fun e => e.data) =
      output.map (fun e => e.data) ∧
    update_fuzz (update_fuzz output matcher "") matcher "" =
      update_fuzz output matcher "" := by
  have h1 := update_fuzz_empty matcher hm output
  refine ⟨h1, ?_, ?_⟩
  · rw [h1, List.map_map]
    rfl
  · rw [h1, update_fuzz_empty matcher hm, List.map_map]
    rfl

/-- A concrete matcher obeying the empty-query scorer contract, for the
C8 witness. -/
def mC8 : Matcher := fun _ p => if p = "" then some (0, []) else none

/-- Witness for C8 on a concrete two-entry store carrying scores and
positions from an earlier query. -/
theorem c8_empty_query_witness :
    update_fuzz [⟨"b", 5, [1]⟩, ⟨"a", 3, []⟩] mC8 "" =
      ([⟨"b", 5, [1]⟩, ⟨"a", 3, []⟩] : List OutputLine).map (fun e => ⟨e.data, 0, []⟩) ∧
    (update_fuzz [⟨"b", 5, [1]⟩, ⟨"a", 3, []⟩] mC8 "").map (fun e => e.data) =
      ([⟨"b", 5, [1]⟩, ⟨"a", 3, []⟩] : List OutputLine).map (fun e => e.data) ∧
    update_fuzz (update_fuzz [⟨"b", 5, [1]⟩, ⟨"a", 3, []⟩] mC8 "") mC8 "" =
      update_fuzz [⟨"b", 5, [1]⟩, ⟨"a", 3, []⟩] mC8 "" :=
  c8_empty_query_idempotent mC8 (fun _ => rfl) [⟨"b", 5, [1]⟩, ⟨"a", 3, []⟩]

/-! ### Claim C2: the no-match scoring policy -/

/-- A concrete matcher for the C2 counterexample: pattern `a` matches
everything with score 10 at position 0; no other pattern matches. -/
def mC2 : Matcher := fun _ p => if p = "a" then some (10, [0]) else none

/-- Counterexample to claim C2 as stated: the two scoring operations do
not apply one no-match policy consistently, and an entry can carry score
and highlight positions left over from an earlier query.  Concretely,
an entry appended under query `a` scores `(10, [0])`; rescoring it
against query `b`, which the scorer does not match, leaves score 10 and
position 0 in place (`OutputLine::update` retains on `None`), while
append-time scoring of the same text under query `b` yields score 0 with
no positions (`OutputLine::new` defaults on `None`). -/
theorem c2_stale_score_cex :
    OutputLine.new "x" mC2 "a" = ⟨"x", 10, [0]⟩ ∧
    OutputLine.update ⟨"x", 10, [0]⟩ mC2 "b" = ⟨"x", 10, [0]⟩ ∧
    OutputLine.new "x" mC2 "b" = ⟨"x", 0, []⟩ ∧
    mC2 "x" "b" = none :=
  ⟨rfl, rfl, rfl, rfl⟩

/-- Claim C2 as amended: when the scorer matches, both operations install
the score and positions it returns; on no-match the two operations
differ — `OutputLine::new` applies the policy score zero with no
highlighted positions, while `OutputLine::update` applies the policy
retain the previous score and positions, so after rescoring against a
non-matching query an entry keeps the score and positions of an earlier
query. -/
theorem c2_no_match_policy_amended (m : Matcher) (d q : String) (e : OutputLine)
    (s : Int) (ix : List Nat) :
    (m d q = none → OutputLine.new d m q = ⟨d, 0, []⟩) ∧
    (m d q = some (s, ix) → OutputLine.new d m q = ⟨d, s, ix⟩) ∧
    (m e.data q = none → OutputLine.update e m q = e) ∧
    (m e.data q = some (s, ix) → OutputLine.update e m q = ⟨e.data, s, ix⟩) := by
  refine ⟨fun h => ?_, fun h => ?_, fun h => ?_, fun h => ?_⟩ <;>
    simp [OutputLine.new, OutputLine.update, h]

/-- Witness for C2 as amended, discharging all four cases on the
concrete matcher `mC2`. -/
theorem c2_no_match_policy_witness :
    OutputLine.new "y" mC2 "b" = ⟨"y", 0, []⟩ ∧
    OutputLine.new "y" mC2 "a" = ⟨"y", 10, [0]⟩ ∧
    OutputLine.update ⟨"y", 7, [1]⟩ mC2 "b" = ⟨"y", 7, [1]⟩ ∧
    OutputLine.update ⟨"y", 7, [1]⟩ mC2 "a" = ⟨"y", 10, [0]⟩ :=
  ⟨(c2_no_match_policy_amended mC2 "y" "b" ⟨"y", 7, [1]⟩ 0 []).1 rfl,
   (c2_no_match_policy_amended mC2 "y" "a" ⟨"y", 7, [1]⟩ 10 [0]).2.1 rfl,
   (c2_no_match_policy_amended mC2 "y" "b" ⟨"y", 7, [1]⟩ 0 []).2.2.1 rfl,
   (c2_no_match_policy_amended mC2 "y" "a" ⟨"y", 7, [1]⟩ 10 [0]).2.2.2 rfl⟩

/-! ### Claim C3: the Descend command and path resolution -/

/-- Counterexample to claim C3 as stated: with the filesystem holding
directory `/a` and plain file `/a/f`, confirming subpath `f` from `/a`
changes the current directory to `/a/f` even though the resolved path is
not a directory — `canonicalize` succeeds on any existing path and the
code performs no directory check, so the command is not a no-op there. -/
theorem c3_descend_into_file_cex :
    isDirAt ⟨[⟨["a"], true⟩, ⟨["a", "f"], false⟩]⟩ ["a", "f"] = false ∧
    descendStep ⟨[⟨["a"], true⟩, ⟨["a", "f"], false⟩]⟩ ⟨["a"], "f"⟩ =
      (⟨["a", "f"], ""⟩, [AppEvent.Dir ["a", "f"] ""]) :=
  ⟨rfl, rfl⟩

/-- Claim C3 as amended: the Descend command changes the current
directory exactly when `current_directory.join(subpath)` canonicalizes to
an existing path — directory or not; on success the directory becomes
the resolved path and the query is cleared, and when canonicalization
fails (the path does not exist) the command is a no-op with the session
state unchanged and no event emitted. -/
theorem c3_descend_amended (fs : FileSystem) (st : KeyState) (d : Path) :
    (canonicalize fs (joinPath st.dir (splitPath st.input)) = none →
      descendStep fs st = (st, [])) ∧
    (canonicalize fs (joinPath st.dir (splitPath st.input)) = some d →
      descendStep fs st = (⟨d, ""⟩, [AppEvent.Dir d ""])) := by
  constructor <;> intro h <;> simp [descendStep, h]

/-- Witness for C3 as amended: a failing resolution is a no-op, and a
succeeding resolution installs the resolved directory and clears the
query. -/
theorem c3_descend_witness :
    descendStep ⟨[]⟩ ⟨["a"], "zz"⟩ = (⟨["a"], "zz"⟩, []) ∧
    descendStep ⟨[⟨["a"], true⟩, ⟨["a", "b"], true⟩]⟩ ⟨["a"], "b"⟩ =
      (⟨["a", "b"], ""⟩, [AppEvent.Dir ["a", "b"] ""]) :=
  ⟨(c3_descend_amended ⟨[]⟩ ⟨["a"], "zz"⟩ []).1 rfl,
   (c3_descend_amended ⟨[⟨["a"], true⟩, ⟨["a", "b"], true⟩]⟩ ⟨["a"], "b"⟩
      ["a", "b"]).2 rfl⟩

/-! ### Claim C6: the Descend/Ascend round trip -/

/-- Counterexample to claim C6 as stated: from `/a/b` the subpath `..`
resolves successfully (to `/a`), yet Descend followed by Ascend lands at
the root `/`, not back at `/a/b` — the round trip fails whenever the
subpath is not a single fresh component. -/
theorem c6_round_trip_cex :
    canonicalize ⟨[⟨["a"], true⟩, ⟨["a", "b"], true⟩]⟩
        (joinPath ["a", "b"] (splitPath "..")) = some ["a"] ∧
    backspaceStep
        (descendStep ⟨[⟨["a"], true⟩, ⟨["a", "b"], true⟩]⟩ ⟨["a", "b"], ".."⟩).1 =
      some (⟨([] : Path), ""⟩, [AppEvent.Dir [] ""]) ∧
    (([] : Path) ≠ (["a", "b"] : Path)) :=
  ⟨rfl, rfl, by decide⟩

/-- Claim C6 as amended: the round trip holds when the subpath resolves
to an immediate child of the current directory — if
`current_directory.join(subpath)` canonicalizes to `current_directory`
extended by one component, then Descend followed by Ascend (Backspace on
the now-empty query) returns the current directory to its original
value. -/
theorem c6_round_trip_amended (fs : FileSystem) (st : KeyState) (c : String)
    (h : canonicalize fs (joinPath st.dir (splitPath st.input)) = some (st.dir ++ [c])) :
    (descendStep fs st).1.dir = st.dir ++ [c] ∧
    backspaceStep (descendStep fs st).1 =
      some (⟨st.dir, ""⟩, [AppEvent.Dir st.dir ""]) := by
  have h1 : descendStep fs st =
      (⟨st.dir ++ [c], ""⟩, [AppEvent.Dir (st.dir ++ [c]) ""]) := by
    simp [descendStep, h]
  rw [h1]
  refine ⟨rfl, ?_⟩
  have hne : ¬ (st.dir ++ [c] = []) := by simp
  have hp : parentPath (st.dir ++ [c]) = some st.dir := by
    rw [parentPath, if_neg hne, List.dropLast_concat]
  unfold backspaceStep
  rw [if_pos (by decide : strByteLen "" < 1), hp]

/-- Witness for C6 as amended: descending from `/a` into child `b` and
ascending returns to `/a`. -/
theorem c6_round_trip_witness :
    (descendStep ⟨[⟨["a"], true⟩, ⟨["a", "b"], true⟩]⟩ ⟨["a"], "b"⟩).1.dir =
      ["a"] ++ ["b"] ∧
    backspaceStep (descendStep ⟨[⟨["a"], true⟩, ⟨["a", "b"], true⟩]⟩ ⟨["a"], "b"⟩).1 =
      some (⟨["a"], ""⟩, [AppEvent.Dir ["a"] ""]) :=
  c6_round_trip_amended ⟨[⟨["a"], true⟩, ⟨["a", "b"], true⟩]⟩ ⟨["a"], "b"⟩ "b" rfl

/-! ### Claim C4: producer failure handling in `spawn_fd` -/

/-- Counterexample to claim C4 as stated: when `cmd.spawn()` fails,
`spawn_fd` does not report the failure and continue — the
`.expect("failed to spawn command")` panics, crashing the session. -/
theorem c4_spawn_failure_cex :
    spawn_fd ⟨false, 0, []⟩ = SpawnOutcome.panicked "failed to spawn command" :=
  rfl

/-- Claim C4 as amended: when the spawn itself succeeds, any exit status
of the external producer — non-zero included — is only reported on the
stderr diagnostic channel by the monitor task; the session is not
crashed or terminated, and the reader simply yields whatever lines the
producer wrote for that run. -/
theorem c4_exit_status_amended (env : ProcEnv) (h : env.spawnOk = true) :
    spawn_fd env =
      SpawnOutcome.reader env.lines ("child status was: " ++ toString env.exitStatus) := by
  simp [spawn_fd, h]

/-- Witness for C4 as amended at a concrete non-zero exit status. -/
theorem c4_exit_status_witness :
    spawn_fd ⟨true, 1, ["a.txt"]⟩ =
      SpawnOutcome.reader ["a.txt"] ("child status was: " ++ toString (1 : Int)) :=
  c4_exit_status_amended ⟨true, 1, ["a.txt"]⟩ rfl

/-! ### Claim C10: the live loop never mutates the entry collection -/

/-- Claim C10 (confirmed): no event handled by the live `for event in
rx.iter()` loop appends to, rescores, or clears the `output` vector —
the loop preserves `output` across every event trace, so starting from
the empty vector created at line 217 it remains empty for the entire
session; enumeration output is never consumed. -/
theorem c10_loop_never_mutates_output (st : MainState) (evs : List AppEvent) :
    (mainLoop st evs).output = st.output ∧
    (mainLoop ⟨[], [], []⟩ evs).output = [] := by
  have key : ∀ (es : List AppEvent) (s : MainState), (mainLoop s es).output = s.output := by
    intro es
    induction es with
    | nil => intro s; rfl
    | cons e es ih =>
      intro s
      cases e <;> simp [mainLoop, mainStep, ih]
  exact ⟨key evs st, key evs ⟨[], [], []⟩⟩

/-! ### Claim C1: generation isolation -/

lemma coordStep_invariant (st : Coordinator) (ev : FeedEvent)
    (h : st.entries.all (fun p => p.1 == st.generation) = true) :
    (coordStep st ev).entries.all (fun p => p.1 == (coordStep st ev).generation) = true := by
  cases ev with
  | dirChange d => simp [coordStep]
  | deliver g line =>
    by_cases hg : g = st.generation
    · simp [coordStep, hg, List.all_append, h]
    · simp [coordStep, hg, h]

lemma coordRun_invariant (evs : List FeedEvent) (st : Coordinator)
    (h : st.entries.all (fun p => p.1 == st.generation) = true) :
    (coordRun st evs).entries.all (fun p => p.1 == (coordRun st evs).generation) = true := by
  induction evs generalizing st with
  | nil => exact h
  | cons e es ih =>
    rw [coordRun, List.foldl_cons]
    exact ih (coordStep st e) (coordStep_invariant st e h)

/-- Claim C1 (confirmed against the coordinator modelled from the spec):
for every interleaving of directory changes and generation-tagged feed
deliveries, starting from an empty entry store, every entry in the store
carries the current generation tag — a line tagged with a stale
generation is discarded by the tag check, so no line from enumeration
run G-1 is ever present after the session has advanced to generation
G. -/
theorem c1_generation_isolation (g0 : Nat) (d0 : Path) (evs : List FeedEvent) :
    ((coordRun ⟨g0, d0, []⟩ evs).entries.all
      (fun p => p.1 == (coordRun ⟨g0, d0, []⟩ evs).generation)) = true :=
  coordRun_invariant evs ⟨g0, d0, []⟩ rfl

end Fdi
